import Mathlib

/-!
Shallow embedding of awoodbeck/smtpdump (src/smtpdump.go): the handler
pipeline and the unique-file allocation algorithm, together with theorems
settling the specification's claims about them.

The filesystem is modelled as an association list from paths to file
contents (message bytes modelled as Lean strings).  Fallible OS calls are
modelled explicitly; a fault oracle in the environment can inject
non-already-exists I/O errors into file creation so the error-handling
paths of the retry loop are observable.
-/

/-- A filesystem: association list from path to file content. -/
abbrev FS := List (String × String)

/-- I/O errors as distinguished by os.IsExist: the already-exists error
versus any other error, the latter tagged by an opaque code. -/
inductive IOErr where
  | isExist : IOErr
  | other : Nat → IOErr
deriving DecidableEq

/-- The environment a randFile call runs in: the nanosecond clock as read
at loop iteration i (time.Now().UnixNano()), the process id (os.Getpid()),
the platform temporary directory (os.TempDir()), and a fault oracle that
may inject a non-already-exists I/O error at attempt i. -/
structure SysEnv where
  nowNano : Nat → Int
  pid : Int
  tempDir : String
  fault : Nat → Option Nat

/-- Go's 64-bit int arithmetic: reduce to the two's-complement
representative in [-2^63, 2^63). -/
def goInt64 (x : Int) : Int :=
  (x + 9223372036854775808) % 18446744073709551616 - 9223372036854775808

/-- The per-attempt draw (smtpdump.go line 161):
int(time.Now().UnixNano()+int64(os.Getpid()))*1664525 + 1013904223, each
operation in wrapping 64-bit machine arithmetic. -/
def lcgDraw (now pid : Int) : Int :=
  goInt64 (goInt64 (goInt64 (now + pid) * 1664525) + 1013904223)

/-- filepath.Join for already-clean path components. -/
def filepathJoin (dir fn : String) : String :=
  if dir = "" then fn else dir ++ "/" ++ fn

/-- The candidate path attempted at loop iteration i (smtpdump.go lines
161-163): fmt.Sprintf of the prefix, the draw and the suffix, joined with
the directory. -/
def candName (env : SysEnv) (dir pfx sfx : String) (i : Nat) : String :=
  filepathJoin dir (pfx ++ "_" ++ toString (lcgDraw (env.nowNano i) env.pid) ++ "." ++ sfx)

/-- os.OpenFile(name, O_RDWR|O_CREATE|O_EXCL, 0600): the fault oracle may
inject a non-already-exists error; otherwise creation fails exactly when
the path exists, else atomically creates an empty file.  Returns the file
(its path), the error, and the filesystem after the call. -/
def openFileExcl (fault : Option Nat) (fs : FS) (name : String) :
    Option String × Option IOErr × FS :=
  match fault with
  | some code => (none, some (IOErr.other code), fs)
  | none =>
    if (fs.lookup name).isSome then (none, some IOErr.isExist, fs)
    else (some name, none, (name, "") :: fs)

/-- Result of a randFile call: the returned file (path) and error, the
filesystem after the call, and the number of loop iterations executed. -/
structure AllocResult where
  file : Option String
  err : Option IOErr
  fs : FS
  attempts : Nat
deriving DecidableEq

/-- The retry loop of randFile (smtpdump.go lines 159-171).  i is the loop
counter, fuel the remaining iterations (initially 10000); the Option
arguments are Go's f and err variables threaded across iterations.  Each
iteration draws a candidate name and attempts an exclusive create; an
already-exists error continues, a nil error breaks, and any other error
falls through to the next iteration. -/
def randFileLoop (env : SysEnv) (dir pfx sfx : String) :
    Nat → Nat → Option String → Option IOErr → FS → AllocResult
  | i, 0, f, err, fs => ⟨f, err, fs, i⟩
  | i, fuel + 1, _, _, fs =>
    let t := openFileExcl (env.fault i) fs (candName env dir pfx sfx i)
    if t.2.1 = some IOErr.isExist then
      randFileLoop env dir pfx sfx (i + 1) fuel t.1 t.2.1 t.2.2
    else if t.2.1 = none then
      ⟨t.1, t.2.1, t.2.2, i + 1⟩
    else
      randFileLoop env dir pfx sfx (i + 1) fuel t.1 t.2.1 t.2.2

/-- randFile (smtpdump.go lines 148-174): resolve an empty directory to
the platform temporary directory, then run the bounded retry loop. -/
def randFile (env : SysEnv) (dir pfx sfx : String) (fs : FS) : AllocResult :=
  randFileLoop env (if dir = "" then env.tempDir else dir) pfx sfx 0 10000 none none fs

/-- Close a line accumulated in reverse order, dropping a trailing CR. -/
def finishLine : List Char → List Char
  | '\r' :: acc => acc.reverse
  | acc => acc.reverse

/-- Split message bytes into lines on LF (trailing CRs dropped by
finishLine); acc holds the current line reversed. -/
def splitLinesAux : List Char → List Char → List (List Char)
  | [], acc => [finishLine acc]
  | c :: cs, acc =>
    if c = '\n' then finishLine acc :: splitLinesAux cs []
    else splitLinesAux cs (c :: acc)

/-- One header line split at its first colon: the lowercased name and the
value with leading blanks dropped. -/
def splitHeaderLine (l : List Char) : String × String :=
  (String.mk ((l.takeWhile fun c => c != ':').map Char.toLower),
   String.mk (((l.dropWhile fun c => c != ':').drop 1).dropWhile fun c => c == ' '))

/-- Modelled from the spec: the Envelope Extractor's parse step (spec 4.2),
standing in for the external net/mail.ReadMessage library call used by
outputHandler: the header section is the run of lines before the first
blank line, every header line must contain a colon, and parsing fails if
the header section is unterminated or a line is malformed.  Headers are
returned as (lowercased name, value) pairs. -/
def parseHeaders : List (List Char) → Option (List (String × String))
  | [] => none
  | l :: rest =>
    if l = [] then some []
    else if l.contains ':' then
      match parseHeaders rest with
      | none => none
      | some hs => some (splitHeaderLine l :: hs)
    else none

/-- mail.ReadMessage on raw message bytes (header part only). -/
def readMessage (data : String) : Option (List (String × String)) :=
  parseHeaders (splitLinesAux data.data [])

/-- Header.Get: first header with the given name, case-insensitively;
empty string when absent. -/
def headerGet (hs : List (String × String)) (key : String) : String :=
  match hs.find? fun h => h.1 == String.mk (key.data.map Char.toLower) with
  | some h => h.2
  | none => ""

/-- Outcome of one disposition-policy invocation: the filesystem after the
call, the path persisted (none when nothing was written), the subject
logged in verbose mode, and whether an error was logged. -/
structure HandlerOutcome where
  fs : FS
  written : Option String
  subjectLogged : Option String
  errLogged : Bool
deriving DecidableEq

/-- io.Copy of the message bytes into the just-created (empty) file at
path p: appends to p's content. -/
def writeAll (fs : FS) (p : String) (data : String) : FS :=
  fs.map fun e => if e.1 = p then (e.1, e.2 ++ data) else e

/-- The persistence tail of outputHandler (smtpdump.go lines 122-137):
allocate with randFile using the current UnixNano reading as the name
prefix and the configured extension as the suffix; on allocation error log
and return; otherwise copy the raw message bytes into the file. -/
def persistCore (out ext : String) (env : SysEnv) (now : Int) (data : String)
    (subj : Option String) (fs : FS) : HandlerOutcome :=
  let res := randFile env out (toString now) ext fs
  match res.file, res.err with
  | some p, none => ⟨writeAll res.fs p data, some p, subj, false⟩
  | _, _ => ⟨res.fs, none, subj, true⟩

/-- outputHandler's returned closure (smtpdump.go lines 108-139): in
verbose mode parse the message and log its subject, returning early when
parsing fails; then persist the raw bytes.  now is the UnixNano reading
taken at line 122. -/
def outputHandler (out ext : String) (verbose : Bool) (env : SysEnv) (now : Int)
    (frm : String) (rcpts : List String) (data : String) (fs : FS) : HandlerOutcome :=
  if verbose then
    match readMessage data with
    | none => ⟨fs, none, none, true⟩
    | some hs => persistCore out ext env now data (some (headerGet hs "Subject")) fs
  else persistCore out ext env now data none fs

/-- Go's %q on a string, modelled as plain quote wrapping for the log
lines. -/
def quoteStr (s : String) : String := "\"" ++ s ++ "\""

/-- authHandler (smtpdump.go lines 101-105): logs the credentials and
always accepts.  Result: ((accept, error), log line). -/
def authHandler (origin mechanism username password shared : String) :
    (Bool × Option String) × String :=
  ((true, none),
   "[AUTH] User: " ++ quoteStr username ++ "; Password: " ++ quoteStr password)

/-- rcptHandler (smtpdump.go lines 141-144): logs the sender and recipient
and always accepts.  Result: (accept, log line). -/
def rcptHandler (origin frm rcpt : String) : Bool × String :=
  (true, "[RCPT] " ++ quoteStr frm ++ " => " ++ quoteStr rcpt)

/-- TLS protocol versions usable as the minimum-version floor. -/
inductive TLSMinVersion where
  | unset : TLSMinVersion
  | v11 : TLSMinVersion
  | v12 : TLSMinVersion
  | v13 : TLSMinVersion
deriving DecidableEq

/-- Modelled from the spec: the TLS Policy Selector's minimum-version flag
evaluation (spec 4.7) — the three mutually exclusive flags are checked in
descending priority order, 1.3 first, then 1.2, then 1.1.  The
flag-evaluation code is not present under src/ (main there only calls
ConfigureTLS on the certificate and key). -/
def selectMinVersion (tls13 tls12 tls11 : Bool) : TLSMinVersion :=
  if tls13 then TLSMinVersion.v13
  else if tls12 then TLSMinVersion.v12
  else if tls11 then TLSMinVersion.v11
  else TLSMinVersion.unset

/-- Modelled from the spec: the Discard disposition variant (spec 4.4):
optionally extracts and logs the subject and performs no persistence.  No
discard variant is present under src/ (outputHandler always persists). -/
def discardHandler (verbose : Bool) (frm : String) (rcpts : List String)
    (data : String) (fs : FS) : HandlerOutcome :=
  if verbose then
    match readMessage data with
    | none => ⟨fs, none, none, true⟩
    | some hs => ⟨fs, none, some (headerGet hs "Subject"), false⟩
  else ⟨fs, none, none, false⟩

/-- main's output-directory resolution (smtpdump.go lines 58-64): an empty
-output flag value is replaced by os.Getwd(). -/
def resolveOutput (output cwd : String) : String :=
  if output = "" then cwd else output

/-- Concrete environment: clock pinned to 0, pid 0, no faults. -/
def env0 : SysEnv := ⟨fun _ => 0, 0, "/tmp", fun _ => none⟩

/-- Concrete environment: clock pinned to 1, pid 0, no faults. -/
def env1 : SysEnv := ⟨fun _ => 1, 0, "/tmp", fun _ => none⟩

/-- Concrete environment injecting a non-already-exists I/O error at
attempt 0 only. -/
def envFault : SysEnv := ⟨fun _ => 0, 0, "/tmp", fun i => if i = 0 then some 7 else none⟩

/-- Concrete environment with a distinctive temporary directory. -/
def envTmp : SysEnv := ⟨fun _ => 0, 0, "/tmpdir", fun _ => none⟩

/-- The loop runs at most fuel iterations beyond its starting counter. -/
theorem randFileLoop_attempts_le (env : SysEnv) (dir pfx sfx : String) :
    ∀ (fuel i : Nat) (f : Option String) (err : Option IOErr) (fs : FS),
      (randFileLoop env dir pfx sfx i fuel f err fs).attempts ≤ i + fuel := by
  intro fuel
  induction fuel with
  | zero => intro i f err fs; simp [randFileLoop]
  | succ fuel ih =>
    intro i f err fs
    simp only [randFileLoop]
    cases hf : env.fault i with
    | some c =>
      have h1 := ih (i + 1) none (some (IOErr.other c)) fs
      simp [openFileExcl, hf]
      omega
    | none =>
      cases hl : fs.lookup (candName env dir pfx sfx i) with
      | some v =>
        have h1 := ih (i + 1) none (some IOErr.isExist) fs
        simp [openFileExcl, hf, hl]
        omega
      | none =>
        simp [openFileExcl, hf, hl]

/-- If the loop stops before exhausting its fuel, it stopped on a
successful exclusive create: the returned error is nil. -/
theorem randFileLoop_early_exit (env : SysEnv) (dir pfx sfx : String) :
    ∀ (fuel i : Nat) (f : Option String) (err : Option IOErr) (fs : FS),
      (randFileLoop env dir pfx sfx i fuel f err fs).attempts < i + fuel →
      (randFileLoop env dir pfx sfx i fuel f err fs).err = none := by
  intro fuel
  induction fuel with
  | zero => intro i f err fs h; simp [randFileLoop] at h
  | succ fuel ih =>
    intro i f err fs
    simp only [randFileLoop]
    cases hf : env.fault i with
    | some c =>
      have h1 := ih (i + 1) none (some (IOErr.other c)) fs
      simp [openFileExcl, hf]
      intro h
      exact h1 (by omega)
    | none =>
      cases hl : fs.lookup (candName env dir pfx sfx i) with
      | some v =>
        have h1 := ih (i + 1) none (some IOErr.isExist) fs
        simp [openFileExcl, hf, hl]
        intro h
        exact h1 (by omega)
      | none =>
        simp [openFileExcl, hf, hl]

/-- A loop run that returns a file returned a nil error, a path that was
free in the starting filesystem, the starting filesystem extended by
exactly that path with empty content, and the path is the candidate of the
attempt it stopped at. -/
theorem randFileLoop_success (env : SysEnv) (dir pfx sfx : String) :
    ∀ (fuel i : Nat) (err : Option IOErr) (fs : FS) (p : String)
      (e : Option IOErr) (g : FS) (a : Nat),
      randFileLoop env dir pfx sfx i fuel none err fs = ⟨some p, e, g, a⟩ →
      e = none ∧ fs.lookup p = none ∧ g = (p, "") :: fs ∧
        ∃ j, i ≤ j ∧ j < i + fuel ∧ p = candName env dir pfx sfx j ∧ a = j + 1 := by
  intro fuel
  induction fuel with
  | zero => intro i err fs p e g a h; simp [randFileLoop] at h
  | succ fuel ih =>
    intro i err fs p e g a
    simp only [randFileLoop]
    cases hf : env.fault i with
    | some c =>
      simp only [openFileExcl, hf]
      intro h
      have h1 := ih (i + 1) (some (IOErr.other c)) fs p e g a (by simpa using h)
      obtain ⟨he, hl, hg, j, hj1, hj2, hj3, hj4⟩ := h1
      exact ⟨he, hl, hg, j, by omega, by omega, hj3, hj4⟩
    | none =>
      cases hl : fs.lookup (candName env dir pfx sfx i) with
      | some v =>
        simp only [openFileExcl, hf, hl]
        intro h
        have h1 := ih (i + 1) (some IOErr.isExist) fs p e g a (by simpa using h)
        obtain ⟨he, hlk, hg, j, hj1, hj2, hj3, hj4⟩ := h1
        exact ⟨he, hlk, hg, j, by omega, by omega, hj3, hj4⟩
      | none =>
        intro h
        simp [openFileExcl, hf, hl] at h
        obtain ⟨hp, he, hg, ha⟩ := h
        subst hp
        exact ⟨he.symm, hl, hg.symm, i, le_refl i, by omega, rfl, ha.symm⟩

/-- If every remaining attempt hits an existing candidate path (and no
other fault is injected), the loop runs its full fuel and returns the
already-exists error with no file and the filesystem untouched. -/
theorem randFileLoop_exhaust (env : SysEnv) (dir pfx sfx : String) :
    ∀ (fuel i : Nat) (err : Option IOErr) (fs : FS),
      (∀ j, i ≤ j → j < i + fuel → env.fault j = none ∧
        (fs.lookup (candName env dir pfx sfx j)).isSome = true) →
      (fuel = 0 → err = some IOErr.isExist) →
      randFileLoop env dir pfx sfx i fuel none err fs =
        ⟨none, some IOErr.isExist, fs, i + fuel⟩ := by
  intro fuel
  induction fuel with
  | zero =>
    intro i err fs hall h0
    rw [h0 rfl]
    simp [randFileLoop]
  | succ fuel ih =>
    intro i err fs hall h0
    have hi := hall i (le_refl i) (by omega)
    obtain ⟨v, hv⟩ := Option.isSome_iff_exists.mp hi.2
    simp only [randFileLoop]
    have hstep := ih (i + 1) (some IOErr.isExist) fs
      (fun j hj1 hj2 => hall j (by omega) (by omega)) (fun hz => rfl)
    simp [openFileExcl, hi.1, hv, hstep]
    omega

/-- Wrapping to 64 bits preserves the residue modulo 2^64. -/
theorem goInt64_emod (x : Int) :
    goInt64 x % 18446744073709551616 = x % 18446744073709551616 := by
  unfold goInt64
  omega

/-- Wrapping identifies integers with the same residue modulo 2^64. -/
theorem goInt64_congr (x y : Int)
    (h : x % 18446744073709551616 = y % 18446744073709551616) :
    goInt64 x = goInt64 y := by
  unfold goInt64
  omega

/-- A randFile call that returns a file returned a nil error, a path free
in the starting filesystem, that filesystem extended by exactly the new
empty file, and the path is the candidate drawn at the attempt it stopped
at (in the resolved directory). -/
theorem randFile_success_spec (env : SysEnv) (dir pfx sfx : String) (fs : FS)
    (p : String) (e : Option IOErr) (g : FS) (a : Nat)
    (h : randFile env dir pfx sfx fs = ⟨some p, e, g, a⟩) :
    e = none ∧ fs.lookup p = none ∧ g = (p, "") :: fs ∧
      ∃ j, j < 10000 ∧
        p = candName env (if dir = "" then env.tempDir else dir) pfx sfx j ∧
        a = j + 1 := by
  unfold randFile at h
  have hs := randFileLoop_success env (if dir = "" then env.tempDir else dir)
    pfx sfx 10000 0 none fs p e g a h
  obtain ⟨he, hl, hg, j, hj1, hj2, hj3, hj4⟩ := hs
  exact ⟨he, hl, hg, j, by omega, hj3, hj4⟩

/-- The nested per-operation wraps of the draw collapse to a single 64-bit
reduction of the whole linear-congruential expression. -/
theorem lcgDraw_closed_form (now pid : Int) :
    lcgDraw now pid = goInt64 ((now + pid) * 1664525 + 1013904223) := by
  unfold lcgDraw
  apply goInt64_congr
  have h1 := goInt64_emod (now + pid)
  have h2 := goInt64_emod (goInt64 (now + pid) * 1664525)
  omega

/-- A persistCore call that reports a written path allocated that path
with randFile and appended the message to the allocated empty file. -/
theorem persistCore_success (out ext : String) (env : SysEnv) (now : Int)
    (data : String) (subj : Option String) (fs : FS) (p : String)
    (h : (persistCore out ext env now data subj fs).written = some p) :
    (∃ a, randFile env out (toString now) ext fs = ⟨some p, none, (p, "") :: fs, a⟩) ∧
      (persistCore out ext env now data subj fs).fs = writeAll ((p, "") :: fs) p data := by
  cases hres : randFile env out (toString now) ext fs with
  | mk file err g a =>
    cases file with
    | none => simp [persistCore, hres] at h
    | some q =>
      cases err with
      | some e => simp [persistCore, hres] at h
      | none =>
        have hq : q = p := by simpa [persistCore, hres] using h
        subst hq
        have hs := randFile_success_spec env out (toString now) ext fs q none g a hres
        constructor
        · exact ⟨a, by rw [hs.2.2.1]⟩
        · simp [persistCore, hres, hs.2.2.1]

/-- An outputHandler call that reports a written path took one of the two
persistCore paths. -/
theorem outputHandler_as_persist (out ext : String) (verbose : Bool)
    (env : SysEnv) (now : Int) (frm : String) (rcpts : List String)
    (data : String) (fs : FS) (p : String)
    (h : (outputHandler out ext verbose env now frm rcpts data fs).written = some p) :
    ∃ subj, outputHandler out ext verbose env now frm rcpts data fs =
      persistCore out ext env now data subj fs := by
  cases verbose with
  | false => exact ⟨none, rfl⟩
  | true =>
    unfold outputHandler at h ⊢
    cases hm : readMessage data with
    | none => simp [hm] at h
    | some hs =>
      refine ⟨some (headerGet hs "Subject"), ?_⟩
      simp [hm]

/-- C1: a successful allocate call returns a path that was absent from the
filesystem immediately before the call and present with empty content
immediately after; creation is exclusive, so a further allocation from the
resulting filesystem returns a different path. -/
theorem randFile_fresh_exclusive
    (env env2 : SysEnv) (dir dir2 pfx pfx2 sfx sfx2 p p2 : String)
    (fs fs1 fs2 : FS) (e e2 : Option IOErr) (n1 n2 : Nat)
    (h1 : randFile env dir pfx sfx fs = ⟨some p, e, fs1, n1⟩)
    (h2 : randFile env2 dir2 pfx2 sfx2 fs1 = ⟨some p2, e2, fs2, n2⟩) :
    fs.lookup p = none ∧ fs1.lookup p = some "" ∧ p2 ≠ p := by
  have s1 := randFile_success_spec env dir pfx sfx fs p e fs1 n1 h1
  have s2 := randFile_success_spec env2 dir2 pfx2 sfx2 fs1 p2 e2 fs2 n2 h2
  have hlk : fs1.lookup p = some "" := by
    rw [s1.2.2.1]; simp [List.lookup]
  refine ⟨s1.2.1, hlk, ?_⟩
  intro hpp
  rw [hpp] at s2
  rw [s2.2.1] at hlk
  simp at hlk

/-- Witness for C1: two successive concrete allocations. -/
theorem randFile_fresh_exclusive_wit :
    randFile env0 "d" "x" "eml" [] =
      ⟨some "d/x_1013904223.eml", none, [("d/x_1013904223.eml", "")], 1⟩ ∧
    randFile env1 "d" "x" "eml" [("d/x_1013904223.eml", "")] =
      ⟨some "d/x_1015568748.eml", none,
        [("d/x_1015568748.eml", ""), ("d/x_1013904223.eml", "")], 1⟩ ∧
    (([] : FS).lookup "d/x_1013904223.eml" = none ∧
      ([("d/x_1013904223.eml", "")] : FS).lookup "d/x_1013904223.eml" = some "" ∧
      "d/x_1015568748.eml" ≠ "d/x_1013904223.eml") :=
  ⟨rfl, rfl, randFile_fresh_exclusive env0 env1 "d" "d" "x" "x" "eml" "eml"
    "d/x_1013904223.eml" "d/x_1015568748.eml" [] [("d/x_1013904223.eml", "")]
    [("d/x_1015568748.eml", ""), ("d/x_1013904223.eml", "")] none none 1 1 rfl rfl⟩

/-- C2: whenever the persist handler reports a written file, that file's
content in the resulting filesystem equals the raw message bytes,
unchanged. -/
theorem persist_roundtrip (out ext : String) (verbose : Bool) (env : SysEnv)
    (now : Int) (frm : String) (rcpts : List String) (data : String)
    (fs : FS) (p : String)
    (h : (outputHandler out ext verbose env now frm rcpts data fs).written = some p) :
    (outputHandler out ext verbose env now frm rcpts data fs).fs.lookup p = some data := by
  obtain ⟨subj, heq⟩ :=
    outputHandler_as_persist out ext verbose env now frm rcpts data fs p h
  rw [heq] at h ⊢
  have hp := persistCore_success out ext env now data subj fs p h
  rw [hp.2]
  simp only [writeAll, List.map_cons]
  simp [List.lookup, String.empty_append]

/-- Witness for C2: a concrete persist run writes the message verbatim. -/
theorem persist_roundtrip_wit :
    (outputHandler "d" "eml" false env0 5 "a@x" [] "hello" []).written =
      some "d/5_1013904223.eml" ∧
    (outputHandler "d" "eml" false env0 5 "a@x" [] "hello" []).fs.lookup
      "d/5_1013904223.eml" = some "hello" :=
  ⟨rfl, persist_roundtrip "d" "eml" false env0 5 "a@x" [] "hello" []
    "d/5_1013904223.eml" rfl⟩

/-- C3 counterexample: with a non-already-exists I/O error injected at
attempt 0, randFile does not abort and propagate that error: it retries
and succeeds on the next attempt, so the call performs 2 attempts and
returns a nil error. -/
theorem randFile_other_error_retries_cex :
    envFault.fault 0 = some 7 ∧
    (randFile envFault "d" "x" "eml" []).err = none ∧
    (randFile envFault "d" "x" "eml" []).attempts = 2 :=
  ⟨rfl, rfl, rfl⟩

/-- C3 amended: an already-exists failure causes a retry with a new draw,
and so does every other I/O failure — the loop exits early only on a
successful creation, and a non-nil error is propagated only after the full
10000-attempt bound is spent. -/
theorem randFile_error_retry (env : SysEnv) (dir pfx sfx : String) (fs : FS) :
    ((randFile env dir pfx sfx fs).attempts < 10000 →
      (randFile env dir pfx sfx fs).err = none) ∧
    ((randFile env dir pfx sfx fs).err ≠ none →
      (randFile env dir pfx sfx fs).attempts = 10000) := by
  have hle := randFileLoop_attempts_le env (if dir = "" then env.tempDir else dir)
    pfx sfx 10000 0 none none fs
  have hearly := randFileLoop_early_exit env (if dir = "" then env.tempDir else dir)
    pfx sfx 10000 0 none none fs
  unfold randFile
  constructor
  · intro h
    exact hearly (by omega)
  · intro h
    by_contra hne
    exact h (hearly (by omega))

/-- Witness for C3 amended: a concrete run that exits early has a nil
error. -/
theorem randFile_error_retry_wit :
    (randFile env0 "d" "x" "eml" []).attempts < 10000 ∧
    (randFile env0 "d" "x" "eml" []).err = none :=
  ⟨by decide, (randFile_error_retry env0 "d" "x" "eml" []).1 (by decide)⟩

/-- C4 counterexample: in verbose mode, a body that cannot be parsed makes
the handler return before persisting — no file is created, the filesystem
is unchanged. -/
theorem malformed_aborts_cex :
    readMessage "x" = none ∧
    (outputHandler "d" "eml" true env0 5 "a@x" [] "x" []).written = none ∧
    (outputHandler "d" "eml" true env0 5 "a@x" [] "x" []).fs = [] :=
  ⟨rfl, rfl, rfl⟩

/-- C4 amended: in verbose mode a parse failure is logged and the handler
aborts the transaction without persisting — the message is not saved to a
file; only in non-verbose mode (where no parse is attempted) is the
message persisted regardless. -/
theorem malformed_aborts (out ext : String) (env : SysEnv) (now : Int)
    (frm : String) (rcpts : List String) (data : String) (fs : FS)
    (h : readMessage data = none) :
    (outputHandler out ext true env now frm rcpts data fs).fs = fs ∧
    (outputHandler out ext true env now frm rcpts data fs).written = none ∧
    (outputHandler out ext true env now frm rcpts data fs).errLogged = true := by
  unfold outputHandler
  rw [h]
  exact ⟨rfl, rfl, rfl⟩

/-- Witness for C4 amended at a concrete malformed body. -/
theorem malformed_aborts_wit :
    readMessage "x" = none ∧
    ((outputHandler "w" "eml" true env0 9 "b@y" [] "x" [("w/f.eml", "old")]).fs =
      [("w/f.eml", "old")] ∧
     (outputHandler "w" "eml" true env0 9 "b@y" [] "x" [("w/f.eml", "old")]).written = none) :=
  ⟨rfl, (malformed_aborts "w" "eml" env0 9 "b@y" [] "x" [("w/f.eml", "old")] rfl).1,
    (malformed_aborts "w" "eml" env0 9 "b@y" [] "x" [("w/f.eml", "old")] rfl).2.1⟩

/-- C5: the retry loop is bounded at 10000 attempts, and when every
attempt fails because the candidate name already exists the call
terminates after exactly 10000 attempts with the already-exists failure
and no file. -/
theorem randFile_bounded_exhaustion (env : SysEnv) (dir pfx sfx : String)
    (fs : FS) (hdir : dir ≠ "") :
    (randFile env dir pfx sfx fs).attempts ≤ 10000 ∧
    ((∀ j, j < 10000 → env.fault j = none ∧
        (fs.lookup (candName env dir pfx sfx j)).isSome = true) →
      randFile env dir pfx sfx fs = ⟨none, some IOErr.isExist, fs, 10000⟩) := by
  have hd : (if dir = "" then env.tempDir else dir) = dir := if_neg hdir
  constructor
  · have := randFileLoop_attempts_le env (if dir = "" then env.tempDir else dir)
      pfx sfx 10000 0 none none fs
    unfold randFile
    omega
  · intro hall
    unfold randFile
    rw [hd]
    exact randFileLoop_exhaust env dir pfx sfx 10000 0 none fs
      (fun j hj1 hj2 => hall j (by omega)) (by omega)

/-- A filesystem already holding the one candidate name env0 can draw. -/
def fsFull : FS := [("d/x_1013904223.eml", "old")]

/-- Witness for C5: with a pinned clock every draw collides, and the call
exhausts all 10000 attempts and fails. -/
theorem randFile_bounded_exhaustion_wit :
    (("d" : String) ≠ "") ∧
    (∀ j, j < 10000 → env0.fault j = none ∧
      (fsFull.lookup (candName env0 "d" "x" "eml" j)).isSome = true) ∧
    (randFile env0 "d" "x" "eml" fsFull).attempts ≤ 10000 ∧
    randFile env0 "d" "x" "eml" fsFull = ⟨none, some IOErr.isExist, fsFull, 10000⟩ :=
  ⟨by decide, fun j hj => ⟨rfl, rfl⟩,
    (randFile_bounded_exhaustion env0 "d" "x" "eml" fsFull (by decide)).1,
    (randFile_bounded_exhaustion env0 "d" "x" "eml" fsFull (by decide)).2
      (fun j hj => ⟨rfl, rfl⟩)⟩

/-- C6: each attempt's draw equals (now + pid) * 1664525 + 1013904223 in
64-bit machine-integer arithmetic; a successful allocation's path is the
directory joined with prefix_draw.suffix for the draw of some attempt; and
the persist handler passes the nanosecond timestamp as the prefix and the
configured extension as the suffix, so saved files are named
timestamp_draw.extension inside the output directory. -/
theorem filename_formula :
    (∀ now pid : Int,
      lcgDraw now pid = goInt64 ((now + pid) * 1664525 + 1013904223)) ∧
    (∀ (env : SysEnv) (dir pfx sfx : String) (fs : FS) (p : String)
        (e : Option IOErr) (g : FS) (a : Nat),
      dir ≠ "" →
      randFile env dir pfx sfx fs = ⟨some p, e, g, a⟩ →
      ∃ i, i < 10000 ∧
        p = dir ++ "/" ++ (pfx ++ "_" ++
          toString (goInt64 ((env.nowNano i + env.pid) * 1664525 + 1013904223)) ++
          "." ++ sfx)) ∧
    (∀ (out ext : String) (verbose : Bool) (env : SysEnv) (now : Int)
        (frm : String) (rcpts : List String) (data : String) (fs : FS) (p : String),
      out ≠ "" →
      (outputHandler out ext verbose env now frm rcpts data fs).written = some p →
      ∃ i, i < 10000 ∧
        p = out ++ "/" ++ (toString now ++ "_" ++
          toString (goInt64 ((env.nowNano i + env.pid) * 1664525 + 1013904223)) ++
          "." ++ ext)) := by
  have key : ∀ (env : SysEnv) (dir pfx sfx : String) (fs : FS) (p : String)
      (e : Option IOErr) (g : FS) (a : Nat),
      dir ≠ "" → randFile env dir pfx sfx fs = ⟨some p, e, g, a⟩ →
      ∃ i, i < 10000 ∧
        p = dir ++ "/" ++ (pfx ++ "_" ++
          toString (goInt64 ((env.nowNano i + env.pid) * 1664525 + 1013904223)) ++
          "." ++ sfx) := by
    intro env dir pfx sfx fs p e g a hdir h
    obtain ⟨he, hl, hg, j, hj1, hj2, hj3⟩ :=
      randFile_success_spec env dir pfx sfx fs p e g a h
    refine ⟨j, hj1, ?_⟩
    rw [if_neg hdir] at hj2
    rw [hj2]
    unfold candName filepathJoin
    rw [if_neg hdir, lcgDraw_closed_form]
  refine ⟨fun now pid => lcgDraw_closed_form now pid, key, ?_⟩
  intro out ext verbose env now frm rcpts data fs p hout h
  obtain ⟨subj, heq⟩ :=
    outputHandler_as_persist out ext verbose env now frm rcpts data fs p h
  rw [heq] at h
  obtain ⟨⟨a, hres⟩, _⟩ := persistCore_success out ext env now data subj fs p h
  exact key env out (toString now) ext fs p none ((p, "") :: fs) a hout hres

/-- Witness for C6: a concrete persist run produces the
timestamp_draw.extension path predicted by the formula. -/
theorem filename_formula_wit :
    (("d" : String) ≠ "") ∧
    (outputHandler "d" "eml" false env0 5 "a@x" [] "msg" []).written =
      some "d/5_1013904223.eml" ∧
    ∃ i, i < 10000 ∧
      "d/5_1013904223.eml" = "d" ++ "/" ++ (toString (5 : Int) ++ "_" ++
        toString (goInt64 ((env0.nowNano i + env0.pid) * 1664525 + 1013904223)) ++
        "." ++ "eml") :=
  ⟨by decide, rfl,
    filename_formula.2.2 "d" "eml" false env0 5 "a@x" [] "msg" []
      "d/5_1013904223.eml" (by decide) rfl⟩

/-- C7: the three minimum-version flags are evaluated in descending
priority order — 1.3 first, then 1.2, then 1.1 — so when several are set
the highest requested floor wins; in particular 1.2 and 1.3 together
yield the 1.3 floor. -/
theorem tls_min_version_priority :
    (∀ t12 t11 : Bool, selectMinVersion true t12 t11 = TLSMinVersion.v13) ∧
    (∀ t11 : Bool, selectMinVersion false true t11 = TLSMinVersion.v12) ∧
    selectMinVersion false false true = TLSMinVersion.v11 ∧
    selectMinVersion true true false = TLSMinVersion.v13 :=
  ⟨fun _ _ => rfl, fun _ => rfl, rfl, rfl⟩

/-- C8: the discard disposition performs no persistence for any message:
the filesystem is unchanged and no path is written, whatever the verbosity
and whether or not the message parses. -/
theorem discard_no_persistence (verbose : Bool) (frm : String)
    (rcpts : List String) (data : String) (fs : FS) :
    (discardHandler verbose frm rcpts data fs).fs = fs ∧
    (discardHandler verbose frm rcpts data fs).written = none := by
  unfold discardHandler
  cases verbose with
  | false => exact ⟨rfl, rfl⟩
  | true =>
    cases hm : readMessage data with
    | none => simp [hm]
    | some hs => simp [hm]

/-- C9: the credential policy accepts every attempt with a nil error, and
the recipient policy accepts every sender and recipient pair. -/
theorem policies_accept_all
    (origin mechanism username password shared frm rcpt : String) :
    (authHandler origin mechanism username password shared).1 = (true, none) ∧
    (rcptHandler origin frm rcpt).1 = true :=
  ⟨rfl, rfl⟩

/-- C10 counterexample: called with an empty directory, randFile itself
resolves it to the platform temporary directory (the allocated path lies
under tempDir), while the caller's configuration layer resolves an empty
output setting to the current working directory, not the temporary
directory. -/
theorem empty_dir_resolution_cex :
    (randFile envTmp "" "x" "eml" []).file = some "/tmpdir/x_1013904223.eml" ∧
    resolveOutput "" "/cwd" = "/cwd" :=
  ⟨rfl, rfl⟩

/-- C10 amended: the caller's configuration layer resolves an empty output
setting to the process working directory before the handler ever calls
allocate; independently, allocate itself also resolves an empty directory
argument, to the platform temporary directory. -/
theorem empty_dir_resolution (env : SysEnv) (pfx sfx : String) (fs : FS)
    (cwd : String) :
    resolveOutput "" cwd = cwd ∧
    randFile env "" pfx sfx fs = randFile env env.tempDir pfx sfx fs := by
  constructor
  · rfl
  · unfold randFile
    by_cases h : env.tempDir = ""
    · rw [if_pos rfl, if_pos h, h]
    · rw [if_pos rfl, if_neg h]
